import Mathlib

/-!
Shallow embedding of the streaming radar frame decoder implemented in
`src/radar_data_processor.py` (class `RadarDataProcessor`).  The mutable
processor state (`byte_buffer`, `byte_buffer_length`, `count_entered`,
`count_exit`, `temp`) is threaded explicitly; the physical byte array of
size `2 ** 15` is a total function `ℕ → ℕ`; Python exceptions that can
escape `process_frame` are modelled with `Except`.  Multi-byte integers
follow the little-endian `np.matmul(byteBuffer[i:i+4], [1, 2^8, 2^16, 2^24])`
reads of the source; 32-bit float views are kept as raw little-endian bit
patterns, and the occupancy tracker interprets them exactly through
`f32Scaled`: the real value of a finite IEEE-754 single with bit pattern `b`
is `f32Scaled b / 2 ^ 150`, an exact integer-scaled representation, so every
comparison the tracker performs (`-0.5 <= x`, `x <= 0.5`, `sign x >= 0`,
`x < 0`) is an exact integer comparison on the scaled values.  Non-finite
encodings scale to magnitudes at least `2 ^ 151`, which fail the band test
just as the corresponding `numpy` comparisons on NaN or infinities are false.
-/

namespace Radar

set_option maxRecDepth 80000

/-- Physical buffer capacity: the source allocates `np.zeros(2**15, dtype='uint8')`
and uses `maxBufferSize = 2 ** 15`. -/
def capacity : ℕ := 2 ^ 15

/-- Sync marker bytes: `MAGIC_WORD = [2, 1, 4, 3, 6, 5, 8, 7]`. -/
def magicWord : List ℕ := [2, 1, 4, 3, 6, 5, 8, 7]

/-- Decoder state held by `RadarDataProcessor`: the physical byte array (`buf`,
total on ℕ, only indices below `capacity` are ever read), the logical length
`byteBufferLength`, the occupancy counters `count_entered` / `count_exit`, and
the per-target-id position history `temp = {i: [] for i in range(7)}` (the
dictionary has exactly the keys `0..6`; `temp` below is only meaningful on
those keys and lookups of other ids raise `KeyError`, see `trackTargets`).
History entries are stored as `f32Scaled` values (value times `2 ^ 150`). -/
structure PState where
  buf : ℕ → ℕ
  len : ℕ
  countEntered : ℕ
  countExit : ℕ
  temp : ℕ → List ℤ

/-- State built by `RadarDataProcessor.__init__`. -/
def initState : PState :=
  { buf := fun _ => 0, len := 0, countEntered := 0, countExit := 0, temp := fun _ => [] }

/-- Python exceptions that can escape `process_frame`. -/
inductive PErr where
  | keyError
  | valueError
  | nameError
deriving DecidableEq

/-- Write `chunk` into the array starting at `start`
(`byteBuffer[start:start+len(chunk)] = chunk`); all other indices keep their
previous contents. -/
def writeBytes (buf : ℕ → ℕ) (start : ℕ) (chunk : List ℕ) : ℕ → ℕ :=
  fun i => if start ≤ i ∧ i < start + chunk.length then chunk.getD (i - start) 0 else buf i

/-- Buffer state after loading a byte list at offset 0 of a fresh zero array. -/
def loadBuf (l : List ℕ) : ℕ → ℕ := writeBytes initState.buf 0 l

/-- Fresh processor state whose buffer holds exactly the bytes of `l`. -/
def loadedState (l : List ℕ) : PState :=
  { buf := loadBuf l, len := l.length, countEntered := 0, countExit := 0,
    temp := fun _ => [] }

/-- Ingest step of `process_frame` lines 113–116: the chunk is appended only when
`byteBufferLength + byteCount < maxBufferSize` (strict), otherwise the state is
left unchanged and the incoming bytes are dropped. -/
def appendChunk (s : PState) (chunk : List ℕ) : PState :=
  if s.len + chunk.length < capacity then
    { s with buf := writeBytes s.buf s.len chunk, len := s.len + chunk.length }
  else s

/-- Little-endian 32-bit read `np.matmul(byteBuffer[i:i+4], [1, 2^8, 2^16, 2^24])`. -/
def le32 (buf : ℕ → ℕ) (i : ℕ) : ℕ :=
  buf i + 2 ^ 8 * buf (i + 1) + 2 ^ 16 * buf (i + 2) + 2 ^ 24 * buf (i + 3)

/-- Little-endian 16-bit read `np.matmul(byteBuffer[i:i+2], [1, 2^8])`. -/
def le16 (buf : ℕ → ℕ) (i : ℕ) : ℕ := buf i + 2 ^ 8 * buf (i + 1)

/-- Full 8-byte marker comparison `np.all(byteBuffer[loc:loc+8] == magicWord)`.
A location within 8 bytes of the end of the physical array yields a truncated
slice, which never compares equal to the 8-element marker, hence the bound. -/
def windowAt (buf : ℕ → ℕ) (loc : ℕ) : Bool :=
  decide (loc + 8 ≤ capacity) &&
    (List.range 8).all fun j => decide (buf (loc + j) = magicWord.getD j 0)

/-- Candidate marker positions `np.where(byteBuffer == magicWord[0])[0]`: every
index of the whole physical array holding the first marker byte. -/
def possibleLocs (buf : ℕ → ℕ) : List ℕ :=
  (List.range capacity).filter fun loc => decide (buf loc = magicWord.getD 0 0)

/-- Verified marker positions (`startIdx` of the source): the candidates whose
full 8-byte window matches the marker, in ascending order. -/
def startIdxList (buf : ℕ → ℕ) : List ℕ :=
  (possibleLocs buf).filter (windowAt buf)

/-- Shift-and-zero-fill compaction used both for dropping garbage before the
first sync index (lines 135–139) and for consuming a processed frame
(lines 331–341): `byteBuffer[:len-k] = byteBuffer[k:len]`, the vacated tail is
zero-filled, and the logical length decreases by `k`.  The source's trailing
`if byteBufferLength < 0: byteBufferLength = 0` is unreachable at its call
sites (`k < len` when discarding, `k = totalPacketLen ≤ len` when consuming),
which the truncated subtraction on ℕ reflects. -/
def discardBefore (s : PState) (k : ℕ) : PState :=
  { s with buf := fun i => if i < s.len - k then s.buf (i + k) else 0, len := s.len - k }

/-- Readiness test of line 152:
`(byteBufferLength >= totalPacketLen) and (byteBufferLength != 0)`. -/
def readyForDecode (len total : ℕ) : Bool :=
  decide (total ≤ len) && decide (len ≠ 0)

/-- Condition of the spec sentence "readyForDecode(headerTotalLength): true iff
current length ≥ headerTotalLength and headerTotalLength > 0", transcribed from
the spec's words for comparison with `readyForDecode` above. -/
def specReadyForDecode (len total : ℕ) : Bool :=
  decide (total ≤ len) && decide (0 < total)

/-- Synchronization stage, lines 118–153 of `process_frame`: when more than 16
bytes are buffered, search the whole array for the marker; if some verified
start index exists, drop the bytes before the first one (when it is positive
and below the logical length), then read `totalPacketLen` at offset 20 of the
compacted buffer and decide readiness (`magicOK`). -/
def syncStage (s : PState) : PState × Bool :=
  if 16 < s.len then
    match (startIdxList s.buf).head? with
    | some loc =>
      let s' := if 0 < loc ∧ loc < s.len then discardBefore s loc else s
      (s', readyForDecode s'.len (le32 s'.buf 20))
    | none => (s, false)
  else (s, false)

/-- Exact scaled value of an IEEE-754 single-precision bit pattern (the
`byteBuffer[idX:idX+4].view(dtype=np.float32)` reads): the real float value
times `2 ^ 150`.  A subnormal or zero (biased exponent 0) has value
`±frac / 2 ^ 149`, a normal value `±(2^23 + frac) * 2^(e - 150)`, so the
scaled values are `±2 * frac` and `±(2^23 + frac) * 2^e` respectively.
Non-finite encodings (biased exponent 255) scale to magnitudes at least
`2 ^ 151`, outside every interval test the tracker performs, matching the
always-false NaN/out-of-band comparisons of the source. -/
def f32Scaled (bits : ℕ) : ℤ :=
  let sign : ℕ := bits / 2 ^ 31 % 2
  let expF : ℕ := bits / 2 ^ 23 % 2 ^ 8
  let frac : ℕ := bits % 2 ^ 23
  let mag : ℤ := if expF = 0 then 2 * frac else (2 ^ 23 + frac) * 2 ^ expF
  if sign = 1 then -mag else mag

/-- Band membership test of line 303: `-0.5 <= posX[i] <= 0.5` on the decoded
32-bit float, exactly `-(2^149) ≤ scaled ∧ scaled ≤ 2^149` on values scaled
by `2 ^ 150`. -/
def bandOK (bits : ℕ) : Bool :=
  decide (-(2 ^ 149 : ℤ) ≤ f32Scaled bits) && decide (f32Scaled bits ≤ 2 ^ 149)

/-- Zero-crossing site list of line 306:
`np.where(np.diff(np.sign(temp[tid]) >= 0))[0]`.  `np.sign x >= 0` is `0 ≤ x`
(also for the scaled values), and `np.diff` on a boolean vector is elementwise
XOR of adjacent entries. -/
def evalSites (xs : List ℤ) : List ℕ :=
  (List.range (xs.length - 1)).filter fun i =>
    (decide (0 ≤ xs.getD i 0)) != (decide (0 ≤ xs.getD (i + 1) 0))

/-- Pointwise update of the `temp` history map. -/
def tempUpdate (t : ℕ → List ℤ) (k : ℕ) (v : List ℤ) : ℕ → List ℤ :=
  fun j => if j = k then v else t j

/-- Occupancy tracking loop of lines 302–315, fed the decoded
`(targetId[i], posX[i])` pairs in order.  For each target whose `posX` lies in
the band, `temp[targetId[i]]` is read (KeyError when the id is not one of the
dictionary keys `0..6`) and the sample appended; every 20th frame number the
updated history is scanned for a zero crossing, and on the first crossing the
counter selected by the sign of the sample before the crossing is incremented,
the history is cleared, and the loop `break`s. -/
def trackTargets (fn : ℕ) :
    List (ℕ × ℕ) → (ℕ → List ℤ) → ℕ → ℕ → Except PErr ((ℕ → List ℤ) × ℕ × ℕ)
  | [], t, e, x => .ok (t, e, x)
  | (tid, bits) :: rest, t, e, x =>
    if bandOK bits then
      if tid < 7 then
        let hist := t tid ++ [f32Scaled bits]
        let t1 := tempUpdate t tid hist
        if fn % 20 = 0 then
          match (evalSites hist).head? with
          | some site =>
            if hist.getD site 0 < 0 then .ok (tempUpdate t1 tid [], e + 1, x)
            else .ok (tempUpdate t1 tid [], e, x + 1)
          | none => trackTargets fn rest t1 e x
        else trackTargets fn rest t1 e x
      else .error .keyError
    else trackTargets fn rest t e x

/-- Decoded point-cloud payload (`pointObj`): parallel per-point 32-bit float
bit patterns for range, azimuth, doppler and snr, sixteen bytes per point. -/
structure PointOut where
  numObj : ℕ
  rangeBits : List ℕ
  azimuthBits : List ℕ
  dopplerBits : List ℕ
  snrBits : List ℕ

/-- Decoded target-list payload (`targetObj`): the fields the source keeps
(frame number, ids, positions and velocities as float bit patterns, target
count, and the occupancy counters after the tracking loop).  The acceleration,
covariance and gain words are read by the source to advance the cursor but are
not part of `targetObj`, hence they only contribute to the 68-byte stride. -/
structure TargetOut where
  frameNumber : ℕ
  targetIds : List ℕ
  posXBits : List ℕ
  posYBits : List ℕ
  velXBits : List ℕ
  velYBits : List ℕ
  numTargets : ℕ
  pplEntered : ℕ
  pplExited : ℕ

/-- Values returned by `process_frame`:
`dataOK, targetDetected, frameNumber, out, targetObj, pointObj` (the `out`
data frame is built from the same dictionary as `targetObj`). -/
structure Output where
  dataOK : Bool
  targetDetected : Bool
  frameNumber : ℕ
  pointObj : Option PointOut
  targetObj : Option TargetOut

/-- Output of a call that decodes no frame. -/
def emptyOutput : Output :=
  { dataOK := false, targetDetected := false, frameNumber := 0,
    pointObj := none, targetObj := none }

/-- State threaded through the TLV loop of lines 196–329: the read cursor
`idX`, the most recently assigned `tlv_length` local (`none` before any
successful length read, since referencing it then raises `NameError`), the
tracker state, and the accumulated outputs. -/
structure TlvState where
  idX : ℕ
  lastLen : Option ℕ
  temp : ℕ → List ℤ
  countEntered : ℕ
  countExit : ℕ
  dataOK : Bool
  targetDetected : Bool
  pointObj : Option PointOut
  targetObj : Option TargetOut

/-- Point-cloud reads of lines 226–239: point `k` occupies the sixteen bytes
at `idX + 16 k`, holding range, azimuth, doppler and snr words in order. -/
def readPoints (buf : ℕ → ℕ) (idX n : ℕ) : PointOut :=
  { numObj := n
    rangeBits := (List.range n).map fun k => le32 buf (idX + 16 * k)
    azimuthBits := (List.range n).map fun k => le32 buf (idX + 16 * k + 4)
    dopplerBits := (List.range n).map fun k => le32 buf (idX + 16 * k + 8)
    snrBits := (List.range n).map fun k => le32 buf (idX + 16 * k + 12) }

/-- Target-list reads of lines 263–298: target `k` occupies the 68 bytes at
`idX + 68 k` (id, posX, posY, velX, velY, then accX, accY, the nine covariance
words and the gain, which are read but not kept in `targetObj`). -/
def readTargets (buf : ℕ → ℕ) (idX k : ℕ) (fn : ℕ) : TargetOut :=
  { frameNumber := fn
    targetIds := (List.range k).map fun j => le32 buf (idX + 68 * j)
    posXBits := (List.range k).map fun j => le32 buf (idX + 68 * j + 4)
    posYBits := (List.range k).map fun j => le32 buf (idX + 68 * j + 8)
    velXBits := (List.range k).map fun j => le32 buf (idX + 68 * j + 12)
    velYBits := (List.range k).map fun j => le32 buf (idX + 68 * j + 16)
    numTargets := k
    pplEntered := 0
    pplExited := 0 }

/-- Continuation of the target-list branch after the element reads: a tracker
exception propagates, otherwise the cursor advances by the 68-byte stride per
target, the tracker state is stored back, `targetDetected` is set and
`targetObj` is filled with the decoded fields and the updated counters
(lines 299–323). -/
def applyTrack (st : TlvState) (k : ℕ) (tg : TargetOut)
    (res : Except PErr ((ℕ → List ℤ) × ℕ × ℕ)) : Except PErr TlvState :=
  match res with
  | .error e => .error e
  | .ok (t', e', x') =>
    .ok { st with idX := st.idX + 68 * k, temp := t', countEntered := e', countExit := x',
                  targetDetected := true,
                  targetObj := some { tg with pplEntered := e', pplExited := x' } }

/-- Dispatch on the TLV type tag, lines 212–329.  `st.idX` points at the first
payload byte and `st.lastLen` holds the `tlv_length` local.  For the point
cloud (6) and target list (7) the element count is `(tlv_length - 8)` floor
divided by the element size; a declared length below 8 makes that Python count
negative and `np.zeros` raises `ValueError`; an element loop whose four-byte
reads run past the physical array also raises `ValueError`.  The target index
(8) advances the cursor by `tlv_length - 8` and keeps nothing (the `indices`
local is dead).  Any other type falls through the `if/elif` chain: the payload
is NOT skipped and the cursor stays at the payload's first byte. -/
def tlvDispatch (buf : ℕ → ℕ) (fn ty : ℕ) (st : TlvState) : Except PErr TlvState :=
  if ty = 6 then
    match st.lastLen with
    | none => .error .nameError
    | some l =>
      if l < 8 then .error .valueError
      else
        let n := (l - 8) / 16
        if 0 < n ∧ capacity < st.idX + 16 * n then .error .valueError
        else .ok { st with idX := st.idX + 16 * n, dataOK := true,
                           pointObj := some (readPoints buf st.idX n) }
  else if ty = 7 then
    match st.lastLen with
    | none => .error .nameError
    | some l =>
      if l < 8 then .error .valueError
      else
        let k := (l - 8) / 68
        if 0 < k ∧ capacity < st.idX + 68 * k then .error .valueError
        else
          let tg := readTargets buf st.idX k fn
          applyTrack st k tg
            (trackTargets fn (tg.targetIds.zip tg.posXBits) st.temp st.countEntered st.countExit)
  else if ty = 8 then
    match st.lastLen with
    | none => .error .nameError
    | some l => .ok { st with idX := st.idX + l - 8 }
  else .ok st

/-- One iteration of the TLV loop, lines 196–210 plus the dispatch.  The
`try/except: pass` around the sub-header reads only ever fires when a four-byte
`matmul` read would run off the physical array: `tlv_type` then keeps its
per-iteration initial value 0 (so the dispatch does nothing) and the cursor and
`tlv_length` local are left as they were.  When only the type word fits, the
cursor advances four bytes and the dispatch sees the stale `tlv_length`.
Within the array, a read at any cursor simply yields the stored bytes — zeros
beyond the logical length — so no exception distinguishes a truncated frame. -/
def tlvOnce (buf : ℕ → ℕ) (fn : ℕ) (st : TlvState) : Except PErr TlvState :=
  if capacity < st.idX + 4 then .ok st
  else
    let ty := le32 buf st.idX
    if capacity < st.idX + 8 then
      tlvDispatch buf fn ty { st with idX := st.idX + 4 }
    else
      tlvDispatch buf fn ty { st with idX := st.idX + 8, lastLen := some (le32 buf (st.idX + 4)) }

/-- The `for tlvIdx in range(numTLVs)` loop; a Python exception aborts it. -/
def tlvIter (buf : ℕ → ℕ) (fn : ℕ) : ℕ → TlvState → Except PErr TlvState
  | 0, st => .ok st
  | n + 1, st =>
    match tlvOnce buf fn st with
    | .error e => .error e
    | .ok st' => tlvIter buf fn n st'

/-- Frame decoding stage, lines 156–343, entered when `magicOK` holds: parse
the fixed header (the version, platform, timestamp, margin and timing words
are read into dead locals; `totalPacketLen` at offset 20, `frameNumber` at 24
and `numTLVs` at 48 are the ones consumed), run the TLV loop from `idX = 52`,
then — since `idX > 0` always holds there — compact the buffer past
`totalPacketLen` bytes. -/
def decodeFrame (s : PState) : Except PErr (PState × Output) :=
  let total := le32 s.buf 20
  let fn := le32 s.buf 24
  let numTLVs := le16 s.buf 48
  let st0 : TlvState :=
    { idX := 52, lastLen := none, temp := s.temp,
      countEntered := s.countEntered, countExit := s.countExit,
      dataOK := false, targetDetected := false, pointObj := none, targetObj := none }
  match tlvIter s.buf fn numTLVs st0 with
  | .error e => .error e
  | .ok st =>
    let s1 : PState :=
      { buf := s.buf, len := s.len, countEntered := st.countEntered,
        countExit := st.countExit, temp := st.temp }
    let s2 := if 0 < st.idX then discardBefore s1 total else s1
    .ok (s2, { dataOK := st.dataOK, targetDetected := st.targetDetected, frameNumber := fn,
               pointObj := st.pointObj, targetObj := st.targetObj })

/-- One full `process_frame` call on one incoming chunk: append the chunk
(lines 113–116), run the synchronization stage, and decode when `magicOK`. -/
def processFrame (s : PState) (chunk : List ℕ) : Except PErr (PState × Output) :=
  let s1 := appendChunk s chunk
  let r := syncStage s1
  if r.2 then decodeFrame r.1 else .ok (r.1, emptyOutput)

/-- Zero-tail invariant: every physical byte at or beyond the logical length
is zero. -/
def ZeroTail (s : PState) : Prop := ∀ i, s.len ≤ i → s.buf i = 0

/-- Header-only frame: marker, `totalPacketLen = 52` at offset 20,
`frameNumber = 40` at offset 24, `numTLVs = 1` at offset 48, 52 bytes in all.
The single announced TLV has no bytes behind it. -/
def frameHdrOnly : List ℕ :=
  magicWord ++ List.replicate 12 0 ++ [52, 0, 0, 0] ++ [40, 0, 0, 0] ++
    List.replicate 20 0 ++ [1, 0] ++ [0, 0]

/-- Frame of 152 bytes with `numTLVs = 2`: an unrecognized TLV
(type 5, declared length 24, 16 payload bytes) followed by a well-formed
target-list TLV (type 7, declared length 76) holding one target with id 3 and
all-zero position words. -/
def frameUnknownThenTargets : List ℕ :=
  magicWord ++ List.replicate 12 0 ++ [152, 0, 0, 0] ++ [1, 0, 0, 0] ++
    List.replicate 20 0 ++ [2, 0] ++ [0, 0] ++
    [5, 0, 0, 0] ++ [24, 0, 0, 0] ++ List.replicate 16 0 ++
    [7, 0, 0, 0] ++ [76, 0, 0, 0] ++ [3, 0, 0, 0] ++ List.replicate 64 0

/-- Frame of 128 bytes with one target-list TLV holding a single target whose
id is 7 (outside the `temp` dictionary keys `0..6`) and whose `posX` word is
0.0, which lies inside the `[-0.5, 0.5]` band. -/
def frameTargetId7 : List ℕ :=
  magicWord ++ List.replicate 12 0 ++ [128, 0, 0, 0] ++ [1, 0, 0, 0] ++
    List.replicate 20 0 ++ [1, 0] ++ [0, 0] ++
    [7, 0, 0, 0] ++ [76, 0, 0, 0] ++ [7, 0, 0, 0] ++ List.replicate 64 0

/-- Minimal complete frame: 52 header bytes, `totalPacketLen = 52`,
`numTLVs = 0`. -/
def frameMinimal : List ℕ :=
  magicWord ++ List.replicate 12 0 ++ [52, 0, 0, 0] ++ List.replicate 28 0

/-- Little-endian bit pattern of the IEEE-754 single 0.2f (`0x3E4CCCCD`). -/
def bitsPointTwo : ℕ := 0x3E4CCCCD

/-- Little-endian bit pattern of the IEEE-754 single -0.1f (`0xBDCCCCCD`). -/
def bitsMinusPointOne : ℕ := 0xBDCCCCCD

/-- Little-endian bit pattern of the IEEE-754 single -0.3f (`0xBE99999A`). -/
def bitsMinusPointThree : ℕ := 0xBE99999A

/-- TLV-loop state whose cursor sits at offset 0 of a buffer, before any
sub-header has been read, with a fresh tracker. -/
def tlvStart : TlvState :=
  { idX := 0, lastLen := none, temp := fun _ => [], countEntered := 0, countExit := 0,
    dataOK := false, targetDetected := false, pointObj := none, targetObj := none }

/-- Bytes of a single point-cloud TLV record whose declared length 25 is not a
multiple of 16 past the 8-byte sub-header: type 6, length 25, then 17 payload
bytes. -/
def oddPointCloudTlv : List ℕ :=
  [6, 0, 0, 0] ++ [25, 0, 0, 0] ++ List.replicate 17 0

/-- Processor state holding the minimal complete frame: the buffer contains
`frameMinimal` at offset 0 and the logical length is its 52 bytes. -/
def stateMinimal : PState :=
  { buf := loadBuf frameMinimal, len := 52, countEntered := 0, countExit := 0,
    temp := fun _ => [] }

theorem head_filter_range (p : ℕ → Bool) {n j : ℕ} (hj : j < n) (hpj : p j = true)
    (hb : ∀ i, i < j → p i = false) :
    ((List.range n).filter p).head? = some j := by
  rw [show n = j + ((n - j - 1) + 1) by omega, List.range_add, List.filter_append,
    List.filter_eq_nil_iff.mpr (fun a ha => by simp [hb a (List.mem_range.mp ha)]),
    List.range_succ_eq_map, List.map_cons, List.filter_cons]
  simp [hpj]

theorem startIdxList_head_of_first {buf : ℕ → ℕ} {j : ℕ} (hw : windowAt buf j = true)
    (hb : ∀ i, i < j → windowAt buf i = false) :
    (startIdxList buf).head? = some j := by
  have h2 := hw
  unfold windowAt at h2
  rw [Bool.and_eq_true] at h2
  have hcap : j + 8 ≤ capacity := of_decide_eq_true h2.1
  have hbyte : buf j = 2 := by
    have := List.all_eq_true.mp h2.2 0 (by simp)
    simpa [magicWord] using of_decide_eq_true this
  unfold startIdxList possibleLocs
  rw [List.filter_filter]
  apply head_filter_range _ (by omega : j < capacity)
  · simp [hw, hbyte, magicWord]
  · intro i hi
    simp [hb i hi]

theorem syncStage_noShift {s : PState} (h16 : 16 < s.len)
    (hw : windowAt s.buf 0 = true) :
    syncStage s = (s, readyForDecode s.len (le32 s.buf 20)) := by
  have hh := startIdxList_head_of_first hw (fun i hi => absurd hi (by omega))
  unfold syncStage
  rw [if_pos h16, hh]
  simp

theorem syncStage_shift {s : PState} {j : ℕ} (h16 : 16 < s.len) (hj : 0 < j ∧ j < s.len)
    (hh : (startIdxList s.buf).head? = some j) :
    syncStage s =
      (discardBefore s j,
        readyForDecode (discardBefore s j).len (le32 (discardBefore s j).buf 20)) := by
  unfold syncStage
  rw [if_pos h16, hh]
  simp [hj]

theorem appendChunk_init (c : List ℕ) (h : c.length < capacity) :
    appendChunk initState c = loadedState c := by
  unfold appendChunk loadedState loadBuf
  simp [h, initState]

theorem loadBuf_getD (l : List ℕ) (i : ℕ) :
    loadBuf l i = if i < l.length then l.getD i 0 else 0 := by
  unfold loadBuf writeBytes initState
  simp

/-- Claim C3, counterexample: with 52 bytes buffered and a header-declared
total packet length of 0, the decoder's readiness test (line 152,
`byteBufferLength >= totalPacketLen and byteBufferLength != 0`) is true,
whereas the claimed condition (buffered length at least the declared total AND
declared total strictly positive) is false — a declared length of 0 does make
a frame ready once bytes are buffered. -/
theorem c3_counterexample :
    readyForDecode 52 0 = true ∧ specReadyForDecode 52 0 = false := by
  decide

/-- Claim C3, amended: whenever the synchronization stage reaches the
readiness test (more than 16 bytes buffered and some verified sync index
found), it proceeds to decode if and only if the buffered length after
discarding leading garbage is at least the declared total packet length AND
that buffered length is nonzero; the declared total being zero does not
prevent readiness. -/
theorem c3_ready_iff_buffered_nonzero (s : PState) (h16 : 16 < s.len)
    (hne : startIdxList s.buf ≠ []) :
    (syncStage s).2 = true ↔
      le32 (syncStage s).1.buf 20 ≤ (syncStage s).1.len ∧ (syncStage s).1.len ≠ 0 := by
  obtain ⟨j, hj⟩ : ∃ j, (startIdxList s.buf).head? = some j := by
    cases hl : startIdxList s.buf with
    | nil => exact absurd hl hne
    | cons a t => exact ⟨a, rfl⟩
  unfold syncStage
  rw [if_pos h16, hj]
  by_cases hsh : 0 < j ∧ j < s.len <;> simp [hsh, readyForDecode]

/-- Claim C3, witness for the amended theorem: on the buffer holding the
minimal 52-byte frame the readiness decision matches the amended condition. -/
theorem c3_witness :
    (syncStage stateMinimal).2 = true ↔
      le32 (syncStage stateMinimal).1.buf 20 ≤ (syncStage stateMinimal).1.len ∧
      (syncStage stateMinimal).1.len ≠ 0 := by
  have hh := startIdxList_head_of_first (j := 0)
    (show windowAt stateMinimal.buf 0 = true by decide) (fun i hi => absurd hi (by omega))
  exact c3_ready_iff_buffered_nonzero stateMinimal (by decide)
    (fun hnil => by rw [hnil] at hh; cases hh)

/-- Claim C5: evaluating the tracking loop at a 20-multiple frame number on a
target whose banded history is the float sequence [-0.3f, -0.1f] with the new
banded sample 0.2f (so the accumulated window sequence is [-0.3, -0.1, 0.2])
increments `count_entered` by exactly 1, leaves `count_exit` unchanged and
clears that target's history; with history [0.2f] and new sample -0.1f
(window sequence [0.2, -0.1]) it increments `count_exit` by exactly 1 and
leaves `count_entered` unchanged.  In the first case the first zero crossing
is between indices 1 and 2 and the sample before it (-0.1) is negative, hence
`entered`; in the second the crossing is between indices 0 and 1 and the
sample before it (0.2) is nonnegative, hence `exited` — classification by the
sign of the sample immediately before the detected crossing. -/
theorem c5_crossing_classification (e x : ℕ) :
    (trackTargets 20 [(3, bitsPointTwo)]
        (tempUpdate initState.temp 3 [f32Scaled bitsMinusPointThree, f32Scaled bitsMinusPointOne])
        e x).map (fun r => (r.1 3, r.2.1, r.2.2)) = .ok ([], e + 1, x) ∧
    (trackTargets 20 [(5, bitsMinusPointOne)]
        (tempUpdate initState.temp 5 [f32Scaled bitsPointTwo])
        e x).map (fun r => (r.1 5, r.2.1, r.2.2)) = .ok ([], e, x + 1) := by
  constructor <;> rfl

/-- Claim C6, counterexample: a chunk that fills the buffer to exactly the
capacity of 32768 satisfies the claimed admission condition
(length + chunk length does not exceed the capacity) yet is rejected by the
source's strict `byteBufferLength + byteCount < maxBufferSize` test, leaving
the length at 0. -/
theorem c6_counterexample :
    (appendChunk initState (List.replicate 32768 5)).len = 0 ∧
      initState.len + (List.replicate 32768 5).length ≤ 32768 := by
  have hl : (List.replicate 32768 (5 : ℕ)).length = 32768 := List.length_replicate _ _
  constructor
  · have hc : ¬ initState.len + (List.replicate 32768 (5 : ℕ)).length < capacity := by
      rw [hl]; decide
    unfold appendChunk
    rw [if_neg hc]
    rfl
  · rw [hl]; decide

/-- Claim C6, amended: a chunk is appended if and only if the current length
plus the chunk length is strictly below the capacity 32768 (so a chunk
filling the buffer exactly to capacity is also dropped); when the chunk is
rejected the buffer contents and length are left completely unchanged. -/
theorem c6_append_strict_bound (s : PState) (c : List ℕ) :
    (s.len + c.length < capacity →
      (appendChunk s c).len = s.len + c.length ∧
      (appendChunk s c).buf = writeBytes s.buf s.len c) ∧
    (capacity ≤ s.len + c.length → appendChunk s c = s) := by
  constructor <;> intro h
  · simp [appendChunk, h]
  · simp [appendChunk, Nat.not_lt.mpr h]

/-- Claim C6, witness: a three-byte chunk into the fresh buffer is appended,
and a chunk reaching exactly the capacity is dropped with the state intact. -/
theorem c6_witness :
    ((appendChunk initState [1, 2, 3]).len = initState.len + [1, 2, 3].length ∧
      (appendChunk initState [1, 2, 3]).buf = writeBytes initState.buf initState.len [1, 2, 3]) ∧
    appendChunk initState (List.replicate 32768 5) = initState :=
  ⟨(c6_append_strict_bound initState [1, 2, 3]).1 (by decide),
    (c6_append_strict_bound initState (List.replicate 32768 5)).2
      (by rw [List.length_replicate]; decide)⟩

/-- Claim C7, counterexample: decoding a point-cloud TLV whose declared length
25 is not of the form 8 + 16 M leaves the cursor at offset 24 (the sub-header
plus one whole 16-byte point), not at the declared length 25, so the cursor is
NOT advanced by exactly the declared length when the length is not an exact
multiple of the element size past the sub-header. -/
theorem c7_counterexample :
    (tlvOnce (loadBuf oddPointCloudTlv) 1 tlvStart).map TlvState.idX = .ok 24 ∧
      (24 : ℕ) ≠ tlvStart.idX + 25 := by
  constructor
  · rfl
  · decide

/-- Claim C7, amended: a decoded point-cloud TLV advances the cursor by
exactly `8 + 16 * ((length - 8) / 16)` bytes and a decoded target-list TLV by
exactly `8 + 68 * ((length - 8) / 68)` bytes (floor division, as the source
computes the element count); this equals the declared length — leaving the
cursor at the next sub-header — exactly when `length - 8` is a multiple of
the element size. -/
theorem c7_record_consumption :
    (∀ (buf : ℕ → ℕ) (fn : ℕ) (st : TlvState),
      le32 buf st.idX = 6 → st.idX + 8 ≤ capacity → 8 ≤ le32 buf (st.idX + 4) →
      ((le32 buf (st.idX + 4) - 8) / 16 = 0 ∨
        st.idX + 8 + 16 * ((le32 buf (st.idX + 4) - 8) / 16) ≤ capacity) →
      (tlvOnce buf fn st).map TlvState.idX =
        .ok (st.idX + 8 + 16 * ((le32 buf (st.idX + 4) - 8) / 16)) ∧
      (16 ∣ le32 buf (st.idX + 4) - 8 →
        st.idX + 8 + 16 * ((le32 buf (st.idX + 4) - 8) / 16) =
          st.idX + le32 buf (st.idX + 4))) ∧
    (∀ (buf : ℕ → ℕ) (fn : ℕ) (st : TlvState) r,
      le32 buf st.idX = 7 → st.idX + 8 ≤ capacity → 8 ≤ le32 buf (st.idX + 4) →
      ((le32 buf (st.idX + 4) - 8) / 68 = 0 ∨
        st.idX + 8 + 68 * ((le32 buf (st.idX + 4) - 8) / 68) ≤ capacity) →
      trackTargets fn
          ((readTargets buf (st.idX + 8) ((le32 buf (st.idX + 4) - 8) / 68) fn).targetIds.zip
            (readTargets buf (st.idX + 8) ((le32 buf (st.idX + 4) - 8) / 68) fn).posXBits)
          st.temp st.countEntered st.countExit = .ok r →
      (tlvOnce buf fn st).map TlvState.idX =
        .ok (st.idX + 8 + 68 * ((le32 buf (st.idX + 4) - 8) / 68)) ∧
      (68 ∣ le32 buf (st.idX + 4) - 8 →
        st.idX + 8 + 68 * ((le32 buf (st.idX + 4) - 8) / 68) =
          st.idX + le32 buf (st.idX + 4))) := by
  constructor
  · intro buf fn st h6 hcap h8 hbound
    constructor
    · unfold tlvOnce
      rw [if_neg (by omega), if_neg (by omega)]
      unfold tlvDispatch
      rw [if_pos h6]
      simp only
      rw [if_neg (by omega)]
      rw [if_neg (by rcases hbound with h | h <;> simp <;> omega)]
      rfl
    · intro hdvd
      have := Nat.div_mul_cancel hdvd
      omega
  · intro buf fn st r h7 hcap h8 hbound htrack
    obtain ⟨t', e', x'⟩ := r
    constructor
    · unfold tlvOnce
      rw [if_neg (by omega), if_neg (by omega)]
      unfold tlvDispatch
      rw [if_neg (by rw [h7]; omega), if_pos h7]
      simp only
      rw [if_neg (by omega)]
      rw [if_neg (by rcases hbound with h | h <;> simp <;> omega)]
      rw [htrack]
      rfl
    · intro hdvd
      have := Nat.div_mul_cancel hdvd
      omega

/-- Claim C7, witness for the amended theorem: a point-cloud TLV of declared
length 24 read at cursor 0 advances the cursor to exactly 24 = 0 + 24, and
24 - 8 is a multiple of 16. -/
theorem c7_witness :
    (tlvOnce (loadBuf ([6, 0, 0, 0] ++ [24, 0, 0, 0] ++ List.replicate 16 0)) 1 tlvStart).map
        TlvState.idX =
      .ok (tlvStart.idX + 8 + 16 *
        ((le32 (loadBuf ([6, 0, 0, 0] ++ [24, 0, 0, 0] ++ List.replicate 16 0)) (tlvStart.idX + 4) - 8) / 16)) ∧
    (16 ∣ le32 (loadBuf ([6, 0, 0, 0] ++ [24, 0, 0, 0] ++ List.replicate 16 0)) (tlvStart.idX + 4) - 8 →
      tlvStart.idX + 8 + 16 *
          ((le32 (loadBuf ([6, 0, 0, 0] ++ [24, 0, 0, 0] ++ List.replicate 16 0)) (tlvStart.idX + 4) - 8) / 16) =
        tlvStart.idX + le32 (loadBuf ([6, 0, 0, 0] ++ [24, 0, 0, 0] ++ List.replicate 16 0)) (tlvStart.idX + 4)) :=
  c7_record_consumption.1 (loadBuf ([6, 0, 0, 0] ++ [24, 0, 0, 0] ++ List.replicate 16 0)) 1 tlvStart
    (by decide) (by decide) (by decide) (Or.inr (by decide))

theorem trackTargets_mono (l : List (ℕ × ℕ)) : ∀ (fn : ℕ) (t : ℕ → List ℤ) (e x : ℕ)
    (r : (ℕ → List ℤ) × ℕ × ℕ), trackTargets fn l t e x = .ok r → e ≤ r.2.1 ∧ x ≤ r.2.2 := by
  induction l with
  | nil =>
    intro fn t e x r h
    unfold trackTargets at h
    cases h
    exact ⟨le_refl _, le_refl _⟩
  | cons hd tl ih =>
    obtain ⟨tid, bits⟩ := hd
    intro fn t e x r h
    unfold trackTargets at h
    split at h
    · split at h
      · split at h
        · dsimp only at h
          split at h
          · split at h
            · cases h; exact ⟨by dsimp only; omega, by dsimp only; omega⟩
            · cases h; exact ⟨by dsimp only; omega, by dsimp only; omega⟩
          · exact ih fn _ e x r h
        · exact ih fn _ e x r h
      · exact Except.noConfusion h
    · exact ih fn t e x r h

theorem applyTrack_mono (st : TlvState) (k : ℕ) (tg : TargetOut)
    (res : Except PErr ((ℕ → List ℤ) × ℕ × ℕ)) (st' : TlvState)
    (hres : ∀ r, res = .ok r → st.countEntered ≤ r.2.1 ∧ st.countExit ≤ r.2.2)
    (h : applyTrack st k tg res = .ok st') :
    st.countEntered ≤ st'.countEntered ∧ st.countExit ≤ st'.countExit := by
  cases res with
  | error e => exact Except.noConfusion h
  | ok r0 =>
    obtain ⟨t', e', x'⟩ := r0
    cases h
    exact hres (t', e', x') rfl

theorem tlvDispatch_mono (buf : ℕ → ℕ) (fn ty : ℕ) (st st' : TlvState)
    (h : tlvDispatch buf fn ty st = .ok st') :
    st.countEntered ≤ st'.countEntered ∧ st.countExit ≤ st'.countExit := by
  unfold tlvDispatch at h
  split at h
  · split at h
    · exact Except.noConfusion h
    · split at h
      · exact Except.noConfusion h
      · dsimp only at h
        split at h
        · exact Except.noConfusion h
        · cases h; exact ⟨le_refl _, le_refl _⟩
  · split at h
    · split at h
      · exact Except.noConfusion h
      · split at h
        · exact Except.noConfusion h
        · dsimp only at h
          split at h
          · exact Except.noConfusion h
          · exact applyTrack_mono _ _ _ _ _
              (fun r hr => trackTargets_mono _ _ _ _ _ _ hr) h
    · split at h
      · split at h
        · exact Except.noConfusion h
        · cases h; exact ⟨le_refl _, le_refl _⟩
      · cases h; exact ⟨le_refl _, le_refl _⟩

theorem tlvOnce_mono (buf : ℕ → ℕ) (fn : ℕ) (st st' : TlvState)
    (h : tlvOnce buf fn st = .ok st') :
    st.countEntered ≤ st'.countEntered ∧ st.countExit ≤ st'.countExit := by
  unfold tlvOnce at h
  split at h
  · cases h; exact ⟨le_refl _, le_refl _⟩
  · split at h
    · have hm := tlvDispatch_mono _ _ _ _ _ h
      exact hm
    · have hm := tlvDispatch_mono _ _ _ _ _ h
      exact hm

theorem tlvIter_mono (buf : ℕ → ℕ) (fn : ℕ) : ∀ (n : ℕ) (st st' : TlvState),
    tlvIter buf fn n st = .ok st' →
    st.countEntered ≤ st'.countEntered ∧ st.countExit ≤ st'.countExit := by
  intro n
  induction n with
  | zero => intro st st' h; cases h; exact ⟨le_refl _, le_refl _⟩
  | succ m ih =>
    intro st st' h
    unfold tlvIter at h
    split at h
    · exact Except.noConfusion h
    · rename_i st1 heq
      have h1 := tlvOnce_mono _ _ _ _ heq
      have h2 := ih _ _ h
      exact ⟨le_trans h1.1 h2.1, le_trans h1.2 h2.2⟩

/-- Claim C9: across every `process_frame` call that returns (`count_entered`
and `count_exit` are only ever incremented, never reset or decreased), each
occupancy counter's value after the call is at least its value before the
call. -/
theorem c9_counters_monotone (s : PState) (c : List ℕ) (r : PState × Output)
    (h : processFrame s c = .ok r) :
    s.countEntered ≤ r.1.countEntered ∧ s.countExit ≤ r.1.countExit := by
  have happE : (appendChunk s c).countEntered = s.countEntered := by
    unfold appendChunk; split <;> rfl
  have happX : (appendChunk s c).countExit = s.countExit := by
    unfold appendChunk; split <;> rfl
  have hsyncE : (syncStage (appendChunk s c)).1.countEntered = s.countEntered := by
    rw [← happE]; unfold syncStage
    split
    · split
      · dsimp only; split <;> rfl
      · rfl
    · rfl
  have hsyncX : (syncStage (appendChunk s c)).1.countExit = s.countExit := by
    rw [← happX]; unfold syncStage
    split
    · split
      · dsimp only; split <;> rfl
      · rfl
    · rfl
  simp only [processFrame] at h
  split at h
  · unfold decodeFrame at h
    dsimp only at h
    split at h
    · exact Except.noConfusion h
    · rename_i st heq
      cases h
      have hm := tlvIter_mono _ _ _ _ _ heq
      have hm1 : (syncStage (appendChunk s c)).1.countEntered ≤ st.countEntered := hm.1
      have hm2 : (syncStage (appendChunk s c)).1.countExit ≤ st.countExit := hm.2
      constructor
      · dsimp only
        split
        · show s.countEntered ≤ st.countEntered
          omega
        · show s.countEntered ≤ st.countEntered
          omega
      · dsimp only
        split
        · show s.countExit ≤ st.countExit
          omega
        · show s.countExit ≤ st.countExit
          omega
  · cases h
    exact ⟨le_of_eq hsyncE.symm, le_of_eq hsyncX.symm⟩

/-- Claim C9, witness: a call on the fresh state ingesting three bytes (too
few to decode) leaves both counters at least their previous values. -/
theorem c9_witness :
    initState.countEntered ≤
      (({ buf := writeBytes initState.buf 0 [1, 2, 3], len := 3, countEntered := 0,
          countExit := 0, temp := fun _ => [] } : PState), emptyOutput).1.countEntered ∧
    initState.countExit ≤
      (({ buf := writeBytes initState.buf 0 [1, 2, 3], len := 3, countEntered := 0,
          countExit := 0, temp := fun _ => [] } : PState), emptyOutput).1.countExit :=
  c9_counters_monotone initState [1, 2, 3]
    ({ buf := writeBytes initState.buf 0 [1, 2, 3], len := 3, countEntered := 0,
        countExit := 0, temp := fun _ => [] }, emptyOutput) rfl

theorem discardBefore_zeroTail (s : PState) (k : ℕ) : ZeroTail (discardBefore s k) := by
  intro i hi
  dsimp only [discardBefore] at hi ⊢
  rw [if_neg (by omega)]

/-- Claim C10: every byte of the physical array at an index at or beyond the
logical buffer length is zero, and this invariant is preserved by
initialization, by `appendChunk` (writes land strictly below the new length),
by the synchronization stage (whose garbage discard zero-fills the vacated
tail) and by every successful `process_frame` call (whose post-frame consume
zero-fills likewise); consequently the sync-marker search, which scans the
entire fixed-size array, can never match at or beyond the logical length:
any full marker window forces `loc + 8 ≤ len`. -/
theorem c10_zero_tail_invariant :
    ZeroTail initState ∧
    (∀ s c, ZeroTail s → ZeroTail (appendChunk s c)) ∧
    (∀ s, ZeroTail s → ZeroTail (syncStage s).1) ∧
    (∀ s c r, ZeroTail s → processFrame s c = .ok r → ZeroTail r.1) ∧
    (∀ s loc, ZeroTail s → windowAt s.buf loc = true → loc + 8 ≤ s.len) := by
  have h1 : ZeroTail initState := fun i _ => rfl
  have h2 : ∀ s c, ZeroTail s → ZeroTail (appendChunk s c) := by
    intro s c hz
    unfold appendChunk
    split
    · intro i hi
      dsimp only at hi ⊢
      unfold writeBytes
      rw [if_neg (by omega)]
      exact hz i (by omega)
    · exact hz
  have h3 : ∀ s, ZeroTail s → ZeroTail (syncStage s).1 := by
    intro s hz
    unfold syncStage
    split
    · split
      · dsimp only
        split
        · exact discardBefore_zeroTail _ _
        · exact hz
      · exact hz
    · exact hz
  have h5 : ∀ s loc, ZeroTail s → windowAt s.buf loc = true → loc + 8 ≤ s.len := by
    intro s loc hz hw
    by_contra hlt
    push_neg at hlt
    unfold windowAt at hw
    rw [Bool.and_eq_true] at hw
    have h7 := of_decide_eq_true (List.all_eq_true.mp hw.2 7 (by decide))
    have h0 := hz (loc + 7) (by omega)
    rw [h0] at h7
    exact absurd h7.symm (by simp [magicWord])
  have h4 : ∀ s c r, ZeroTail s → processFrame s c = .ok r → ZeroTail r.1 := by
    intro s c r hz h
    simp only [processFrame] at h
    split at h
    · unfold decodeFrame at h
      dsimp only at h
      split at h
      · exact Except.noConfusion h
      · cases h
        dsimp only
        split
        · exact discardBefore_zeroTail _ _
        · intro i hi
          exact h3 _ (h2 _ _ hz) i hi
    · cases h
      exact h3 _ (h2 _ _ hz)
  exact ⟨h1, h2, h3, h4, h5⟩

/-- Claim C10, witness: after appending the marker bytes to the fresh state,
the invariant transported through the theorem's parts forces the verified
window at offset 0 to lie entirely below the logical length 8. -/
theorem c10_witness : 0 + 8 ≤ (appendChunk initState magicWord).len :=
  c10_zero_tail_invariant.2.2.2.2 (appendChunk initState magicWord) 0
    (c10_zero_tail_invariant.2.1 initState magicWord c10_zero_tail_invariant.1)
    (by decide)


/-- Claim C8: for every buffer of the form [garbage bytes containing no marker
window][8-byte marker][complete frame] fed to one `process_frame` call on the
fresh state, the synchronization stage verifies readiness (the frame is
decoded), its resulting state is exactly the frame shifted to offset 0 with
the logical length reduced by the garbage length and the tail zero-filled
(`loadedState F`), and the whole call — decoded outputs, tracker counters and
final state — equals the call that ingests the frame without any garbage, so
the counters reflect only the valid frame's targets.  `F` is a complete frame:
it starts with the marker, is at least header-sized, and declares
`totalPacketLen` equal to its own length. -/
theorem c8_sync_recovery (g F : List ℕ)
    (hb : ∀ i, i < g.length → windowAt (loadBuf (g ++ F)) i = false)
    (hw : windowAt (loadBuf F) 0 = true)
    (hF : 52 ≤ F.length)
    (hcap : g.length + F.length < capacity)
    (htot : le32 (loadBuf F) 20 = F.length) :
    (syncStage (appendChunk initState (g ++ F))).2 = true ∧
    (syncStage (appendChunk initState (g ++ F))).1 = loadedState F ∧
    processFrame initState (g ++ F) = processFrame initState F := by
  have hlenA : (g ++ F).length = g.length + F.length := List.length_append g F
  have happG : appendChunk initState (g ++ F) = loadedState (g ++ F) :=
    appendChunk_init _ (by omega)
  have happF : appendChunk initState F = loadedState F :=
    appendChunk_init _ (by omega)
  have h16F : 16 < (loadedState F).len := by
    show 16 < F.length
    omega
  have hready : readyForDecode (loadedState F).len (le32 (loadedState F).buf 20) = true := by
    show readyForDecode F.length (le32 (loadBuf F) 20) = true
    unfold readyForDecode
    rw [htot, Bool.and_eq_true, decide_eq_true_eq, decide_eq_true_eq]
    omega
  have hsyncF : syncStage (appendChunk initState F) =
      (loadedState F, readyForDecode (loadedState F).len (le32 (loadedState F).buf 20)) := by
    rw [happF]
    exact syncStage_noShift h16F hw
  rcases Nat.eq_zero_or_pos g.length with hg0 | hg0
  · have hgnil : g = [] := List.length_eq_zero.mp hg0
    subst hgnil
    rw [List.nil_append]
    refine ⟨?_, ?_, rfl⟩
    · rw [hsyncF]
      exact hready
    · rw [hsyncF]
  · have hpt : ∀ i, i < F.length → loadBuf (g ++ F) (i + g.length) = loadBuf F i := by
      intro i hi
      rw [loadBuf_getD, loadBuf_getD, if_pos (by omega : i + g.length < (g ++ F).length),
        if_pos hi, List.getD_append_right g F 0 (i + g.length) (by omega)]
      congr 1
      omega
    have hwG : windowAt (loadBuf (g ++ F)) g.length = true := by
      unfold windowAt at hw ⊢
      rw [Bool.and_eq_true] at hw ⊢
      refine ⟨decide_eq_true (by omega), ?_⟩
      rw [List.all_eq_true] at hw ⊢
      intro j hj
      have hj8 : j < 8 := List.mem_range.mp hj
      have hv := of_decide_eq_true (hw.2 j hj)
      apply decide_eq_true
      calc loadBuf (g ++ F) (g.length + j)
          = loadBuf (g ++ F) (j + g.length) := by rw [Nat.add_comm]
        _ = loadBuf F j := hpt j (by omega)
        _ = loadBuf F (0 + j) := by rw [Nat.zero_add]
        _ = magicWord.getD j 0 := hv
    have hh : (startIdxList (loadBuf (g ++ F))).head? = some g.length :=
      startIdxList_head_of_first hwG hb
    have h16G : 16 < (loadedState (g ++ F)).len := by
      show 16 < (g ++ F).length
      omega
    have hj : 0 < g.length ∧ g.length < (loadedState (g ++ F)).len := by
      refine ⟨hg0, ?_⟩
      show g.length < (g ++ F).length
      omega
    have hstate : discardBefore (loadedState (g ++ F)) g.length = loadedState F := by
      unfold discardBefore loadedState
      dsimp only
      rw [PState.mk.injEq]
      refine ⟨?_, by omega, rfl, rfl, rfl⟩
      funext i
      rw [show (g ++ F).length - g.length = F.length by omega]
      by_cases hi : i < F.length
      · rw [if_pos hi, hpt i hi]
      · rw [if_neg hi, loadBuf_getD, if_neg hi]
    have hsyncG : syncStage (appendChunk initState (g ++ F)) =
        (loadedState F, readyForDecode (loadedState F).len (le32 (loadedState F).buf 20)) := by
      rw [happG, syncStage_shift h16G hj hh, hstate]
    refine ⟨?_, ?_, ?_⟩
    · rw [hsyncG]
      exact hready
    · rw [hsyncG]
    · simp only [processFrame, hsyncG, hsyncF]

/-- Claim C8, witness: three garbage bytes 9 followed by the minimal complete
frame are ingested in one call; the stage reports ready, the garbage is
discarded, and the run equals the garbage-free run. -/
theorem c8_witness :
    (syncStage (appendChunk initState ([9, 9, 9] ++ frameMinimal))).2 = true ∧
    (syncStage (appendChunk initState ([9, 9, 9] ++ frameMinimal))).1 = loadedState frameMinimal ∧
    processFrame initState ([9, 9, 9] ++ frameMinimal) = processFrame initState frameMinimal :=
  c8_sync_recovery [9, 9, 9] frameMinimal (by decide) (by decide) (by decide)
    (by decide) (by decide)

/-- Claim C1, code evaluation at the failing input: a fully buffered frame
whose first TLV has the unrecognized type 5 and declared length 24, followed
by a well-formed target-list TLV at offset 76 holding one in-band target with
id 3.  The source's dispatch has no branch for type 5 and does not advance the
cursor past the 16 payload bytes, so the second loop iteration re-reads a
sub-header from inside the first record's payload (type 0, length 0) instead
of at offset 76: the frame completes with `targetDetected = 0`, untouched
counters and an untouched history for id 3, even though a decoder that skips
`length - 8` payload bytes would decode the target list.  This refutes the
claimed skip-by-`length - 8` behavior on this input. -/
theorem c1_unknown_tlv_not_skipped :
    (processFrame initState frameUnknownThenTargets).map
        (fun r => (r.2.targetDetected, r.1.countEntered, r.1.countExit, r.1.temp 3, r.1.len)) =
      .ok (false, 0, 0, [], 0) := by
  have happ : appendChunk initState frameUnknownThenTargets =
      loadedState frameUnknownThenTargets := appendChunk_init _ (by decide)
  simp only [processFrame, happ]
  rw [syncStage_noShift (by decide) (by decide)]
  rfl

/-- Claim C2, code evaluation at the failing input: a buffered frame of
exactly 52 header bytes declaring `numTLVs = 1`, with no bytes behind the
header, so fewer than 8 bytes of the frame remain at the cursor when the
sub-header read is attempted.  The read does not abort: the fixed physical
array yields the zero-filled tail, the loop consumes a fabricated sub-header
(type 0, length 0, cursor 52 → 60) and iterates on as if the read had
succeeded, and the call completes normally (frame number 40 decoded, no
error, frame consumed to length 0) — there is no `Truncated` outcome in the
code. -/
theorem c2_truncated_subheader_silently_read :
    (processFrame initState frameHdrOnly).map
        (fun r => (r.2.frameNumber, r.2.dataOK, r.2.targetDetected, r.1.len)) =
      .ok (40, false, false, 0) ∧
    (tlvIter (loadBuf frameHdrOnly) 40 1
        { idX := 52, lastLen := none, temp := fun _ => [], countEntered := 0, countExit := 0,
          dataOK := false, targetDetected := false, pointObj := none, targetObj := none }).map
        (fun st => (st.idX, st.lastLen)) = .ok (60, some 0) := by
  constructor
  · have happ : appendChunk initState frameHdrOnly = loadedState frameHdrOnly :=
      appendChunk_init _ (by decide)
    simp only [processFrame, happ]
    rw [syncStage_noShift (by decide) (by decide)]
    rfl
  · rfl

/-- Claim C4, code evaluation at the failing input: ingesting one complete,
well-formed frame whose target list holds a single target with id 7 and
`posX = 0.0` (inside the band `[-0.5, 0.5]`) raises an uncaught `KeyError`:
the history dictionary `temp = {i: [] for i in range(7)}` has keys `0..6`
only, and `temp[targetId[i]].append(...)` is not inside any `try`.  The
exception propagates out of `process_frame`, refuting the claim that every
decode irregularity degrades to a defined outcome. -/
theorem c4_ingest_raises_keyerror :
    processFrame initState frameTargetId7 = .error .keyError := by
  have happ : appendChunk initState frameTargetId7 = loadedState frameTargetId7 :=
    appendChunk_init _ (by decide)
  simp only [processFrame, happ]
  rw [syncStage_noShift (by decide) (by decide)]
  rfl

end Radar
